import Mathlib

/-!
Verification of the game-library enrichment ETL core
(`src/how_long_to_beat.py` and `src/internet_games_database.py`).

Tables are modelled as lists of structure values, one structure per row
schema.  pandas joins, filters and groupby/apply steps are translated
into list operations.  Float similarity scores from the HowLongToBeat
service are modelled as rationals; the fuzzywuzzy `fuzz.ratio`-based
scorer used for the IGDB pass is an external library and is passed in
as an abstract scoring function `String → String → Nat` (0-100 scale).
pandas `groupby` sorts group keys; the model enumerates keys in
first-occurrence order instead, which permutes whole groups only and
leaves per-key row content unchanged.
-/

/-- Remove duplicates keeping the first occurrence of each value, as
pandas `df[~df.duplicated()]` and `Series.unique()` do.  `seen` is the
accumulator of values already emitted. -/
def dedupFirstAux {α : Type} [DecidableEq α] (seen : List α) : List α → List α
  | [] => []
  | a :: rest =>
    if a ∈ seen then dedupFirstAux seen rest else a :: dedupFirstAux (a :: seen) rest

def dedupFirst {α : Type} [DecidableEq α] (l : List α) : List α :=
  dedupFirstAux [] l

/-- First element of the list minimising `f`, like pandas
`Series.idxmin`, which returns the first row label attaining the
minimum. -/
def first_min_by {α β : Type} [LinearOrder β] (f : α → β) : List α → Option α
  | [] => none
  | a :: rest =>
    match first_min_by f rest with
    | none => some a
    | some c => if f a ≤ f c then some a else some c

/-- `df.groupby(key).apply(f)` over rows with non-null keys: apply `f`
to the rows of each key group and concatenate the results.  Keys are
enumerated in first-occurrence order (pandas sorts keys, which permutes
whole groups only). -/
def groupApply {α : Type} [DecidableEq α] (l : List α) (key : α → Nat)
    (f : List α → List α) : List α :=
  (dedupFirst (l.map key)).flatMap (fun k => f (l.filter (fun a => key a == k)))

/-- One row of the cleaned library table (`playnite_library.csv`),
restricted to the columns the HLTB pass reads. -/
structure LibRow where
  id : Nat
  name : String
  library_release_year : Int
deriving DecidableEq

/-- One row of the raw HowLongToBeat extract built in
`extract_hltb_data`. -/
structure HltbRawRow where
  game : String
  release_year : Int
  similarity : Rat
  hltb_main : Int
  hltb_extra : Int
  hltb_completion : Int
  library_name : String
  library_id : Nat
  hltb_extract_date : Nat
deriving DecidableEq

/-- A raw HLTB row merged with its library row: the right-merge in
`filter_and_match_hltb_data` pulls `id`, `name` and
`library_release_year` from the library side. -/
abbrev HltbPair := HltbRawRow × LibRow

/-- `hltb_raw_df["similarity"] == groupby("library_id")["similarity"].transform("max")`:
a row passes iff its similarity is maximal within its `library_id`
group (the row belongs to its own group, so this is equivalent to
equality with the group maximum). -/
def isGroupMax (raw : List HltbRawRow) (r : HltbRawRow) : Bool :=
  (raw.filter (fun x => x.library_id == r.library_id)).all
    (fun x => decide (x.similarity ≤ r.similarity))

/-- Steps 1-2 of `filter_and_match_hltb_data`: keep max-similarity rows
per `library_id`, then `hltb_filtered_df[~hltb_filtered_df.duplicated()]`. -/
def hltb_dedup (raw : List HltbRawRow) : List HltbRawRow :=
  dedupFirst (raw.filter (fun r => isGroupMax raw r))

/-- The `how="right"` merge of the filtered HLTB rows onto
`library_df[["id", "name", "library_release_year"]]`: every library row
appears; a library row with no matching HLTB row appears once with the
HLTB side null (in pandas, its `library_id` column is NaN). -/
def hltb_right_merge (deduped : List HltbRawRow) (library : List LibRow) :
    List (Option HltbRawRow × LibRow) :=
  library.flatMap (fun L =>
    let ms := deduped.filter (fun r => r.library_id == L.id)
    if ms.isEmpty then [(none, L)] else ms.map (fun m => (some m, L)))

/-- The merged rows that survive `groupby("library_id")`: pandas groupby
drops rows whose group key is NaN, i.e. exactly the rows whose HLTB side
is null. -/
def hltb_matched_pairs (raw : List HltbRawRow) (library : List LibRow) : List HltbPair :=
  (hltb_right_merge (hltb_dedup raw) library).filterMap
    (fun p => p.1.map (fun m => (m, p.2)))

/-- `select_best_hltb_match`: a single-row group is returned unchanged;
otherwise compute `year_diff = abs(release_year - library_release_year)`
(library year read from the group's first row), return the first exact
match if any, else the `idxmin` row (first row attaining the minimal
difference). -/
def select_best_hltb_match (group : List HltbPair) : List HltbPair :=
  match group with
  | [] => []
  | [g] => [g]
  | g0 :: _ :: _ =>
    let y := g0.2.library_release_year
    let exactRows := group.filter (fun p => (p.1.release_year - y).natAbs == 0)
    match exactRows with
    | e :: _ => [e]
    | [] => (first_min_by (fun p => (p.1.release_year - y).natAbs) group).toList

/-- `filter_and_match_hltb_data`: max-similarity filter, duplicate
removal, right-merge with the library, then one
`select_best_hltb_match` application per `library_id` group. -/
def filter_and_match_hltb_data (raw : List HltbRawRow) (library : List LibRow) :
    List HltbPair :=
  groupApply (hltb_matched_pairs raw library) (fun p => p.1.library_id)
    select_best_hltb_match

/-- The playtime-pass tie-break as the spec words it (for the refinement
proof): an exact year match wins outright, first such candidate if
several; otherwise the candidate with minimum absolute year difference,
first in iteration order on ties. -/
def hltb_spec_choice (group : List HltbPair) : List HltbPair :=
  match group with
  | [] => []
  | g0 :: _ =>
    let y := g0.2.library_release_year
    match group.find? (fun p => p.1.release_year == y) with
    | some r => [r]
    | none => (first_min_by (fun p => (p.1.release_year - y).natAbs) group).toList

/-- Does library id `k` appear in the library and own at least one
surviving (max-similarity, deduplicated) raw HLTB row? -/
def hltb_has_match (raw : List HltbRawRow) (library : List LibRow) (k : Nat) : Bool :=
  library.any (fun L => L.id == k) && (hltb_dedup raw).any (fun m => m.library_id == k)

/-- One row of the persisted `hltb_playtimes.csv` table (the columns
written at the end of `transform_hltb_data`). -/
structure HltbProcRow where
  library_name : String
  library_id : Nat
  library_release_year : Int
  hltb_main : Int
  hltb_extra : Int
  hltb_completion : Int
  hltb_extract_date : Nat
deriving DecidableEq

/-- The upsert at the end of `transform_hltb_data`: when a persisted
table exists, keep its rows whose `library_id` index is not in the fresh
batch's index and concatenate the fresh batch
(`pd.concat([processed[~processed.index.isin(matched.index)], matched])`);
with no persisted table the fresh batch becomes the table. -/
def hltb_upsert (persisted : Option (List HltbProcRow)) (matched : List HltbProcRow) :
    List HltbProcRow :=
  match persisted with
  | none => matched
  | some prev =>
    prev.filter (fun r => ! matched.any (fun m => m.library_id == r.library_id)) ++ matched

/-- The report block of `transform_hltb_data`: when `generate_report` is
set, the report builder runs with no surrounding try/except, so its
outcome (modelled as an `Except`) is the outcome of the step. -/
def hltb_report_step (generate : Bool) (report_outcome : Except String Unit) :
    Except String Unit :=
  if generate then report_outcome else Except.ok ()

/-- The tail of `transform_hltb_data`: run the (optional) report block,
then upsert the matched batch into the persisted table and write it.
An exception in the report block propagates and the upsert/persist
never executes. -/
def transform_hltb_run (generate : Bool) (report_outcome : Except String Unit)
    (persisted : Option (List HltbProcRow)) (matched : List HltbProcRow) :
    Except String (List HltbProcRow) :=
  match hltb_report_step generate report_outcome with
  | Except.error e => Except.error e
  | Except.ok _ => Except.ok (hltb_upsert persisted matched)

/-- Python `s.replace(pat, rep)`, fuelled for structural recursion:
replace every non-overlapping occurrence of `pat` left to right.  Every
step consumes at least one character and one unit of fuel, so fuel
equal to the string length (as supplied by `replace_all`) never runs
out. -/
def replace_all_fuel (pat rep : List Char) : Nat → List Char → List Char
  | _, [] => []
  | 0, s => s
  | fuel + 1, c :: rest =>
    if pat ≠ [] ∧ pat.isPrefixOf (c :: rest) then
      rep ++ replace_all_fuel pat rep fuel ((c :: rest).drop pat.length)
    else
      c :: replace_all_fuel pat rep fuel rest

/-- Python `s.replace(pat, rep)`: replace every non-overlapping
occurrence of `pat` left to right (modelled for non-empty `pat`, the
only way the source uses it). -/
def replace_all (pat rep : List Char) (s : List Char) : List Char :=
  replace_all_fuel pat rep s.length s

/-- Python `s.strip()`: drop leading and trailing whitespace. -/
def strip_chars (s : List Char) : List Char :=
  ((s.dropWhile Char.isWhitespace).reverse.dropWhile Char.isWhitespace).reverse

/-- The query-name preparation in `extract_hltb_data` (lines 70-74): if
the prepared name (`name_no_punct`) starts with "Pokémon", remove every
occurrence of "Version" and strip the result; otherwise use the name
unchanged. -/
def hltb_search_name (name_no_punct : List Char) : List Char :=
  if "Pokémon".toList.isPrefixOf name_no_punct then
    strip_chars (replace_all "Version".toList [] name_no_punct)
  else
    name_no_punct

/-- One row of the cleaned library table as read by the IGDB pass: the
iteration uses the `id` index and the (possibly NaN) `name` column; the
table also carries a `library_release_year` column (NaN when the
release date is missing) which the merges propagate. -/
structure LibRowI where
  id : Nat
  name : Option String
  library_release_year : Option Int
deriving DecidableEq

/-- One row of the IGDB `games` snapshot, restricted to the columns the
matching and reconciliation read (`id`, `name`, `first_release_date`
modelled by its year, `category`), plus null-flags for the remaining
columns (used only for completeness counting). -/
structure IgdbRow where
  igdb_id : Nat
  name : Option String
  first_release_date : Option Int
  category : Option Int
  extra_na : List Bool
deriving DecidableEq

/-- One row of `match_df`, as built by the loop of
`igdb_library_fuzzy_matching`. -/
structure MatchRow where
  library_id : Nat
  library_name : Option String
  igdb_name : Option String
  similarity_score : Nat
deriving DecidableEq

/-- The pre-filter predicate of `igdb_library_fuzzy_matching`:
`g and g[0].lower() == first_letter`, where `first_letter` is the
query's lowercased first character, or the empty string for an empty
query (which no single character ever equals). -/
def first_char_match (query g : String) : Bool :=
  !g.isEmpty && !query.isEmpty && (g.front.toLower == query.front.toLower)

/-- The candidate pre-filter with its fallback: keep reference names
sharing the query's first character (case-insensitively); if none do,
use the full reference list. -/
def candidate_filter (names : List String) (query : String) : List String :=
  let filtered := names.filter (first_char_match query)
  if filtered.isEmpty then names else filtered

/-- fuzzywuzzy `process.extractOne(query, choices, scorer)`: score every
choice and return the first best-scoring one, or `none` for an empty
choice list.  The scorer is invoked once per choice. -/
def extract_one (ratio : String → String → Nat) (query : String) :
    List String → Option (String × Nat)
  | [] => none
  | c :: rest =>
    match extract_one ratio query rest with
    | none => some (c, ratio query c)
    | some bs => if bs.2 ≤ ratio query c then some (c, ratio query c) else some bs

/-- The body of the matching loop of `igdb_library_fuzzy_matching` for
one library record.  Returns the emitted `match_df` row together with
the number of scorer invocations performed for this record.  A NaN name
short-circuits to a null row with score 0; otherwise the candidate
filter runs, `extractOne` scores each candidate, and the best match is
accepted only when its score reaches the threshold. -/
def igdb_match_one (ratio : String → String → Nat) (threshold : Nat)
    (names : List String) (lid : Nat) (libname : Option String) : MatchRow × Nat :=
  match libname with
  | none =>
    ({ library_id := lid, library_name := none, igdb_name := none,
       similarity_score := 0 }, 0)
  | some nm =>
    let cands := candidate_filter names nm
    match extract_one ratio nm cands with
    | some bs =>
      if threshold ≤ bs.2 then
        ({ library_id := lid, library_name := some nm, igdb_name := some bs.1,
           similarity_score := bs.2 }, cands.length)
      else
        ({ library_id := lid, library_name := some nm, igdb_name := none,
           similarity_score := bs.2 }, cands.length)
    | none =>
      ({ library_id := lid, library_name := some nm, igdb_name := none,
         similarity_score := 0 }, cands.length)

/-- `igdb_df['name'].dropna().unique()`: distinct non-null reference
names in first-occurrence order. -/
def igdb_names (igdb : List IgdbRow) : List String :=
  dedupFirst (igdb.filterMap (fun g => g.name))

/-- `igdb_library_fuzzy_matching`: one emitted row per library record. -/
def igdb_library_fuzzy_matching (ratio : String → String → Nat) (threshold : Nat)
    (library : List LibRowI) (igdb : List IgdbRow) : List MatchRow :=
  library.map (fun L => (igdb_match_one ratio threshold (igdb_names igdb) L.id L.name).1)

/-- Number of library records the Match Resolver accepted (non-null
matched fields) at the given threshold. -/
def igdb_accepted_count (ratio : String → String → Nat) (threshold : Nat)
    (library : List LibRowI) (igdb : List IgdbRow) : Nat :=
  ((igdb_library_fuzzy_matching ratio threshold library igdb).filter
    (fun r => r.igdb_name.isSome)).length

/-- One row of the `result` frame of `filter_and_match_igdb_data`
(match row joined with library and IGDB data).  The merged frame
carries `library_release_year` (library side) and `first_release_date`
(IGDB side); `release_year` models `row.get('release_year', None)`,
the value `select_best_igdb_match` actually reads — and since no input
has a column of that name, the merge always produces `none` there.
`nan_flags` records null-ness of the remaining columns for the
completeness count. -/
structure IgdbResultRow where
  library_id : Nat
  library_name : Option String
  igdb_name : Option String
  similarity_score : Nat
  library_release_year : Option Int
  release_year : Option Int
  first_release_date : Option Int
  category : Option Int
  igdb_id : Option Nat
  nan_flags : List Bool
deriving DecidableEq

/-- Build one merged row from a match row, its (optional) library join
partner and its (optional) IGDB join partner.  The library side
contributes `library_release_year`; `release_year` holds the value of
`row.get('release_year', None)`, and since no merge input has a column
of that name it is always `none`. -/
def igdb_mk_row (M : MatchRow) (libSide : Option LibRowI) (gameSide : Option IgdbRow) :
    IgdbResultRow :=
  { library_id := M.library_id
    library_name := M.library_name
    igdb_name := M.igdb_name
    similarity_score := M.similarity_score
    library_release_year := libSide.bind LibRowI.library_release_year
    release_year := none
    first_release_date := gameSide.bind IgdbRow.first_release_date
    category := gameSide.bind IgdbRow.category
    igdb_id := gameSide.map IgdbRow.igdb_id
    nan_flags :=
      libSide.isNone :: (match gameSide with | some g => g.extra_na | none => []) }

/-- The `how='left'` merge of `match_df` with the library: all library
rows whose `id` equals the match row's `library_id`, or a single null
partner when there is none. -/
def igdb_lib_side (library : List LibRowI) (M : MatchRow) : List (Option LibRowI) :=
  let ls := library.filter (fun L => L.id == M.library_id)
  if ls.isEmpty then [none] else ls.map some

/-- The `how='left'` merge with `igdb_df` on `igdb_name = name`: a null
`igdb_name` never joins (NaN keys never match in pandas); otherwise all
IGDB rows with that name, or a single null partner when there is none. -/
def igdb_game_side (igdb : List IgdbRow) (M : MatchRow) : List (Option IgdbRow) :=
  match M.igdb_name with
  | none => [none]
  | some nm =>
    let gs := igdb.filter (fun g => g.name == some nm)
    if gs.isEmpty then [none] else gs.map some

/-- All merged rows produced for one match row (library fan-out times
IGDB fan-out). -/
def igdb_rows_for (library : List LibRowI) (igdb : List IgdbRow) (M : MatchRow) :
    List IgdbResultRow :=
  (igdb_lib_side library M).flatMap
    (fun ls => (igdb_game_side igdb M).map (igdb_mk_row M ls))

/-- The full `result` frame: merged rows for every match row. -/
def igdb_result_rows (library : List LibRowI) (igdb : List IgdbRow)
    (match_df : List MatchRow) : List IgdbResultRow :=
  match_df.flatMap (igdb_rows_for library igdb)

/-- `abs(to_datetime(first_release_date).dt.year - library_year) <= 1`,
with `pd.notna(first_release_date)` required. -/
def igdb_year_within_one (r : IgdbResultRow) (ly : Int) : Bool :=
  match r.first_release_date with
  | some fy => decide ((fy - ly).natAbs ≤ 1)
  | none => false

/-- The year-narrowing step of `select_best_igdb_match`: when the first
row's `release_year` value is present, narrow to candidates whose
release year is within one year, keeping the group if none survive. -/
def igdb_year_step (group : List IgdbResultRow) : List IgdbResultRow :=
  match group with
  | [] => []
  | g0 :: _ =>
    match g0.release_year with
    | some ly =>
      let ym := group.filter (fun r => igdb_year_within_one r ly)
      if ym.isEmpty then group else ym
    | none => group

/-- The category-narrowing step: prefer `category == 0` (main game)
candidates when any exist. -/
def igdb_category_step (group : List IgdbResultRow) : List IgdbResultRow :=
  let mains := group.filter (fun r => r.category == some 0)
  if mains.isEmpty then group else mains

/-- `group.isna().sum(axis=1)`: number of null fields of the row
(`release_year` is not a column of the merged frame and is not
counted). -/
def igdb_nan_count (r : IgdbResultRow) : Nat :=
  (if r.library_name.isNone then 1 else 0) + (if r.igdb_name.isNone then 1 else 0) +
    (if r.library_release_year.isNone then 1 else 0) +
    (if r.first_release_date.isNone then 1 else 0) + (if r.category.isNone then 1 else 0) +
    (if r.igdb_id.isNone then 1 else 0) + r.nan_flags.count true

/-- `select_best_igdb_match`: a single-row group is returned as is;
otherwise the year step runs, the category step runs only while more
than one candidate remains, and the fewest-nulls pick (first on ties)
runs only while more than one candidate still remains. -/
def select_best_igdb_match (group : List IgdbResultRow) : Option IgdbResultRow :=
  match group with
  | [] => none
  | [c] => some c
  | _ :: _ :: _ =>
    let g1 := igdb_year_step group
    let g2 := if 1 < g1.length then igdb_category_step g1 else g1
    if 1 < g2.length then first_min_by igdb_nan_count g2 else g2.head?

/-- The year narrowing as the spec and the claim word it: key on the
*library* release year (the merged frame's `library_release_year`
column), narrowing to candidates within one year of it when it is known
(and, being numeric, parseable), keeping the group when no candidate
survives.  This is the step `select_best_igdb_match` was meant to
perform but does not, because it reads the nonexistent `release_year`
column instead. -/
def igdb_spec_year_step (group : List IgdbResultRow) : List IgdbResultRow :=
  match group with
  | [] => []
  | g0 :: _ =>
    match g0.library_release_year with
    | some ly =>
      let ym := group.filter (fun r => igdb_year_within_one r ly)
      if ym.isEmpty then group else ym
    | none => group

/-- The catalog-pass tie-break as the claim words it: narrow by library
release year, then by category 0, then pick the first candidate with
the fewest null fields; a single-candidate group is returned
unchanged. -/
def igdb_spec_choice (group : List IgdbResultRow) : Option IgdbResultRow :=
  match group with
  | [] => none
  | [c] => some c
  | _ :: _ :: _ =>
    first_min_by igdb_nan_count (igdb_category_step (igdb_spec_year_step group))

/-- `filter_and_match_igdb_data` (deduplication part): split the merged
frame into matched (`igdb_name` non-null) and unmatched rows, collapse
each matched `library_id` group to the selected best row, and append the
unmatched rows unchanged; with no matched rows the frame passes through. -/
def filter_and_match_igdb_data (library : List LibRowI) (igdb : List IgdbRow)
    (match_df : List MatchRow) : List IgdbResultRow :=
  let result := igdb_result_rows library igdb match_df
  let matched := result.filter (fun r => r.igdb_name.isSome)
  let unmatched := result.filter (fun r => r.igdb_name.isNone)
  if matched.isEmpty then result
  else
    groupApply matched (fun r => r.library_id)
      (fun g => (select_best_igdb_match g).toList) ++ unmatched

/-- Concrete raw HLTB row with the given release year (scenario 3). -/
def hltbRawYear (yr : Int) : HltbRawRow :=
  { game := "G", release_year := yr, similarity := 1, hltb_main := 10, hltb_extra := 2,
    hltb_completion := 3, library_name := "G", library_id := 1, hltb_extract_date := 0 }

/-- Concrete library row with release year 2020 (scenario 3). -/
def hltbLibRow : LibRow := { id := 1, name := "G", library_release_year := 2020 }

/-- Scenario 3 group: candidate years 2019 and 2021 against library year
2020, in that iteration order. -/
def hltbScenarioGroup : List HltbPair :=
  [(hltbRawYear 2019, hltbLibRow), (hltbRawYear 2021, hltbLibRow)]

/-- Concrete raw HLTB row matching library id 1 (scenario 1 flavour). -/
def hltbRawChrono : HltbRawRow :=
  { game := "Chrono Trigger", release_year := 1995, similarity := 1, hltb_main := 20,
    hltb_extra := 5, hltb_completion := 10, library_name := "Chrono Trigger",
    library_id := 1, hltb_extract_date := 0 }

/-- Concrete library row with id 1. -/
def hltbLibChrono : LibRow := { id := 1, name := "Chrono Trigger", library_release_year := 1995 }

/-- Concrete library row with id 2 and no HLTB data. -/
def hltbLibObscure : LibRow := { id := 2, name := "Obscuria", library_release_year := 2001 }

/-- Concrete IGDB-pass library row. -/
def igdbLibHalo : LibRowI := { id := 5, name := some "Halo", library_release_year := some 2001 }

/-- Concrete IGDB-pass library row with a known, parseable release
year (scenario-1 flavour). -/
def igdbLibChronoRow : LibRowI :=
  { id := 9, name := some "Chrono Trigger", library_release_year := some 1995 }

/-- Concrete IGDB games row: the 1995 entry sharing the matched name,
not flagged as a main game (category 9). -/
def igdbRowChrono1995 : IgdbRow :=
  { igdb_id := 200, name := some "Chrono Trigger", first_release_date := some 1995,
    category := some 9, extra_na := [] }

/-- Concrete IGDB games row: the 2008 entry sharing the matched name,
flagged as a main game (category 0). -/
def igdbRowChrono2008 : IgdbRow :=
  { igdb_id := 201, name := some "Chrono Trigger", first_release_date := some 2008,
    category := some 0, extra_na := [] }

/-- Concrete match row joining the library record to the shared name. -/
def igdbMatchChrono : MatchRow :=
  { library_id := 9, library_name := some "Chrono Trigger",
    igdb_name := some "Chrono Trigger", similarity_score := 100 }

/-- Concrete IGDB games row. -/
def igdbRowHalo : IgdbRow :=
  { igdb_id := 100, name := some "Halo", first_release_date := some 2001,
    category := some 0, extra_na := [] }

/-- Concrete match row joining the two. -/
def igdbMatchHalo : MatchRow :=
  { library_id := 5, library_name := some "Halo", igdb_name := some "Halo",
    similarity_score := 100 }

/-- Concrete persisted-table row used by the scenario inputs. -/
def procRow (nm : String) (i : Nat) (y : Int) : HltbProcRow :=
  { library_name := nm, library_id := i, library_release_year := y,
    hltb_main := 10, hltb_extra := 2, hltb_completion := 3, hltb_extract_date := 1 }

/-- Scenario 4 persisted table: library ids 1, 2, 3 (old rows). -/
def upsertOldTable : List HltbProcRow :=
  [procRow "old" 1 2000, procRow "old" 2 2000, procRow "old" 3 2000]

/-- Scenario 4 fresh batch: library ids 2, 3, 4 (new rows). -/
def upsertFreshTable : List HltbProcRow :=
  [procRow "new" 2 2001, procRow "new" 3 2001, procRow "new" 4 2001]

theorem dedupFirstAux_mem {α : Type} [DecidableEq α] (l : List α) :
    ∀ (seen : List α) (a : α), a ∈ dedupFirstAux seen l ↔ a ∈ l ∧ a ∉ seen := by
  induction l with
  | nil => intro seen a; simp [dedupFirstAux]
  | cons b rest ih =>
    intro seen a
    by_cases hb : b ∈ seen
    · rw [dedupFirstAux, if_pos hb, ih]
      constructor
      · rintro ⟨ha, hs⟩
        exact ⟨List.mem_cons_of_mem b ha, hs⟩
      · rintro ⟨ha, hs⟩
        rcases List.mem_cons.mp ha with rfl | ha
        · exact absurd hb hs
        · exact ⟨ha, hs⟩
    · rw [dedupFirstAux, if_neg hb]
      constructor
      · intro hmem
        rcases List.mem_cons.mp hmem with rfl | hmem
        · exact ⟨List.mem_cons_self a rest, hb⟩
        · rcases (ih (b :: seen) a).mp hmem with ⟨ha, hs⟩
          refine ⟨List.mem_cons_of_mem b ha, fun hc => hs (List.mem_cons_of_mem b hc)⟩
      · rintro ⟨ha, hs⟩
        rcases List.mem_cons.mp ha with rfl | ha
        · exact List.mem_cons_self a _
        · by_cases hab : a = b
          · subst hab; exact List.mem_cons_self a _
          · exact List.mem_cons_of_mem b ((ih (b :: seen) a).mpr
              ⟨ha, fun hc => (List.mem_cons.mp hc).elim hab hs⟩)

theorem dedupFirstAux_nodup {α : Type} [DecidableEq α] (l : List α) :
    ∀ seen : List α, (dedupFirstAux seen l).Nodup := by
  induction l with
  | nil => intro seen; simp [dedupFirstAux]
  | cons b rest ih =>
    intro seen
    by_cases hb : b ∈ seen
    · rw [dedupFirstAux, if_pos hb]; exact ih seen
    · rw [dedupFirstAux, if_neg hb]
      refine List.nodup_cons.mpr ⟨?_, ih (b :: seen)⟩
      intro hc
      exact ((dedupFirstAux_mem rest (b :: seen) b).mp hc).2 (List.mem_cons_self b seen)

theorem mem_dedupFirst {α : Type} [DecidableEq α] {l : List α} {a : α} :
    a ∈ dedupFirst l ↔ a ∈ l := by
  rw [dedupFirst, dedupFirstAux_mem]
  simp

theorem nodup_dedupFirst {α : Type} [DecidableEq α] (l : List α) :
    (dedupFirst l).Nodup :=
  dedupFirstAux_nodup l []

theorem first_min_by_mem {α β : Type} [LinearOrder β] (f : α → β) :
    ∀ (l : List α) (b : α), first_min_by f l = some b → b ∈ l := by
  intro l
  induction l with
  | nil => intro b h; simp [first_min_by] at h
  | cons a rest ih =>
    intro b h
    cases hrec : first_min_by f rest with
    | none =>
      simp only [first_min_by, hrec] at h
      cases h
      exact List.mem_cons_self _ _
    | some c =>
      simp only [first_min_by, hrec] at h
      split at h
      · cases h; exact List.mem_cons_self _ _
      · cases h; exact List.mem_cons_of_mem _ (ih _ hrec)

theorem first_min_by_of_ne_nil {α β : Type} [LinearOrder β] (f : α → β) (l : List α)
    (h : l ≠ []) : ∃ b, first_min_by f l = some b ∧ b ∈ l := by
  cases l with
  | nil => exact absurd rfl h
  | cons a rest =>
    cases hrec : first_min_by f rest with
    | none => exact ⟨a, by simp only [first_min_by, hrec], List.mem_cons_self _ _⟩
    | some c =>
      by_cases hle : f a ≤ f c
      · exact ⟨a, by simp only [first_min_by, hrec]; rw [if_pos hle],
          List.mem_cons_self _ _⟩
      · exact ⟨c, by simp only [first_min_by, hrec]; rw [if_neg hle],
          List.mem_cons_of_mem _ (first_min_by_mem f rest c hrec)⟩

theorem first_min_by_len_le_one {α β : Type} [LinearOrder β] (f : α → β) (l : List α)
    (h : l.length ≤ 1) : first_min_by f l = l.head? := by
  cases l with
  | nil => rfl
  | cons a rest =>
    cases rest with
    | nil => rfl
    | cons b t => simp at h

/-- C1: Incremental upsert semantics: with no persisted table the output
is the fresh batch; for any key present in the fresh batch the output's
rows at that key are exactly the fresh batch's rows there (fresh wins);
for any key absent from the fresh batch the output's rows at that key
are exactly the persisted table's rows there (old rows survive
unchanged). -/
theorem c1_upsert_semantics (P F : List HltbProcRow) (k : Nat) :
    hltb_upsert none F = F
    ∧ ((∃ f ∈ F, f.library_id = k) →
        (hltb_upsert (some P) F).filter (fun r => r.library_id == k)
          = F.filter (fun r => r.library_id == k))
    ∧ ((∀ f ∈ F, f.library_id ≠ k) →
        (hltb_upsert (some P) F).filter (fun r => r.library_id == k)
          = P.filter (fun r => r.library_id == k)) := by
  refine ⟨rfl, ?_, ?_⟩
  · rintro ⟨f, hf, rfl⟩
    show ((P.filter _) ++ F).filter _ = _
    rw [List.filter_append]
    have h0 : (P.filter (fun r => ! F.any (fun m => m.library_id == r.library_id))).filter
        (fun r => r.library_id == f.library_id) = [] := by
      rw [List.filter_eq_nil_iff]
      intro a ha hak
      have hkeep := (List.mem_filter.mp ha).2
      have hany : F.any (fun m => m.library_id == a.library_id) = true := by
        refine List.any_eq_true.mpr ⟨f, hf, ?_⟩
        have : a.library_id = f.library_id := by simpa using hak
        simp [this]
      simp [hany] at hkeep
    rw [h0, List.nil_append]
  · intro hnone
    show ((P.filter _) ++ F).filter _ = _
    rw [List.filter_append]
    have hF : F.filter (fun r => r.library_id == k) = [] := by
      rw [List.filter_eq_nil_iff]
      intro a ha h
      exact hnone a ha (by simpa using h)
    have hP : (P.filter (fun r => ! F.any (fun m => m.library_id == r.library_id))).filter
        (fun r => r.library_id == k) = P.filter (fun r => r.library_id == k) := by
      rw [List.filter_filter]
      apply List.filter_congr
      intro a _
      by_cases hk : a.library_id = k
      · simp [hk]
        intro x hx
        exact hnone x hx
      · simp [hk]
    rw [hF, hP, List.append_nil]

/-- C1 witness: scenario 4 evaluated: persisted ids {1,2,3} merged with
fresh ids {2,3,4} give {1 (old), 2 (new), 3 (new), 4 (new)}, and the
per-key clauses of C1 instantiated at keys 2 and 1. -/
theorem c1_upsert_semantics_witness :
    hltb_upsert (some upsertOldTable) upsertFreshTable
      = [procRow "old" 1 2000, procRow "new" 2 2001, procRow "new" 3 2001,
         procRow "new" 4 2001]
    ∧ (hltb_upsert (some upsertOldTable) upsertFreshTable).filter
        (fun r => r.library_id == 2) = upsertFreshTable.filter (fun r => r.library_id == 2)
    ∧ (hltb_upsert (some upsertOldTable) upsertFreshTable).filter
        (fun r => r.library_id == 1) = upsertOldTable.filter (fun r => r.library_id == 1) :=
  ⟨by decide,
   (c1_upsert_semantics upsertOldTable upsertFreshTable 2).2.1
     ⟨procRow "new" 2 2001, by decide, rfl⟩,
   (c1_upsert_semantics upsertOldTable upsertFreshTable 1).2.2 (by decide)⟩

/-- C2: Upsert idempotence: merging the same fresh batch a second time
into the already-merged table leaves it unchanged. -/
theorem c2_upsert_idempotent (P F : List HltbProcRow) :
    hltb_upsert (some (hltb_upsert (some P) F)) F = hltb_upsert (some P) F := by
  show ((P.filter _ ++ F).filter _) ++ F = P.filter _ ++ F
  rw [List.filter_append]
  have h1 : (P.filter (fun r => ! F.any (fun m => m.library_id == r.library_id))).filter
      (fun r => ! F.any (fun m => m.library_id == r.library_id))
      = P.filter (fun r => ! F.any (fun m => m.library_id == r.library_id)) :=
    List.filter_eq_self.mpr (fun a ha => (List.mem_filter.mp ha).2)
  have h2 : F.filter (fun r => ! F.any (fun m => m.library_id == r.library_id)) = [] := by
    rw [List.filter_eq_nil_iff]
    intro f hf hkeep
    have hany : F.any (fun m => m.library_id == f.library_id) = true :=
      List.any_eq_true.mpr ⟨f, hf, by simp⟩
    simp [hany] at hkeep
  rw [h1, h2, List.append_nil]

/-- C6 counterexample: the claim covers records with a missing *or
empty* name, but an empty-string name is not NaN: it reaches the
scoring path, the first-letter filter matches nothing, the fallback
hands the scorer the full reference set, and the scorer is invoked once
per reference name (three times here) although the emitted row is still
null with score 0. -/
theorem c6_missing_name_counterexample :
    (igdb_match_one (fun _ _ => 0) 50 ["Apple", "Bob", "Cat"] 7 (some "")).2 = 3
    ∧ (igdb_match_one (fun _ _ => 0) 50 ["Apple", "Bob", "Cat"] 7
        (some "")).1.similarity_score = 0
    ∧ (igdb_match_one (fun _ _ => 0) 50 ["Apple", "Bob", "Cat"] 7
        (some "")).1.igdb_name = none := by
  refine ⟨by decide, by decide, by decide⟩

/-- C6 amended: for every library record whose name is missing (NaN),
the Match Resolver emits a row with similarity score 0 and all matched
fields null, and the scorer is invoked zero times, for every scorer,
threshold and reference set. -/
theorem c6_missing_name_amended (ratio : String → String → Nat) (threshold : Nat)
    (names : List String) (lid : Nat) :
    igdb_match_one ratio threshold names lid none
      = ({ library_id := lid, library_name := none, igdb_name := none,
           similarity_score := 0 }, 0) :=
  rfl

/-- C7: Candidate Filter fallback: when some reference name shares the
query's first character (case-insensitively) the filter returns exactly
that subset; when none does it returns the full reference set; hence
the candidate set is never empty while the reference set is non-empty. -/
theorem c7_candidate_filter_fallback (names : List String) (query : String) :
    (names.filter (first_char_match query) ≠ [] →
      candidate_filter names query = names.filter (first_char_match query))
    ∧ (names.filter (first_char_match query) = [] →
      candidate_filter names query = names)
    ∧ (names ≠ [] → candidate_filter names query ≠ []) := by
  have hsplit : candidate_filter names query
      = if names.filter (first_char_match query) = [] then names
        else names.filter (first_char_match query) := by
    rw [candidate_filter]
    by_cases hfe : names.filter (first_char_match query) = []
    · simp [hfe]
    · have he : (names.filter (first_char_match query)).isEmpty = false := by
        cases hc : (names.filter (first_char_match query)).isEmpty
        · rfl
        · exact absurd (List.isEmpty_iff.mp hc) hfe
      simp [he, hfe]
  refine ⟨?_, ?_, ?_⟩
  · intro h
    rw [hsplit, if_neg h]
  · intro h
    rw [hsplit, if_pos h]
  · intro h
    rw [hsplit]
    by_cases hfe : names.filter (first_char_match query) = []
    · rw [if_pos hfe]; exact h
    · rw [if_neg hfe]; exact hfe

/-- C7 witness: no reference name starts with the query's first letter,
so the filter returns the full (non-empty) reference set. -/
theorem c7_candidate_filter_fallback_witness :
    candidate_filter ["Zelda", "Mario"] "Halo" = ["Zelda", "Mario"]
    ∧ candidate_filter ["Zelda", "Mario"] "Halo" ≠ [] :=
  ⟨(c7_candidate_filter_fallback ["Zelda", "Mario"] "Halo").2.1 (by decide),
   (c7_candidate_filter_fallback ["Zelda", "Mario"] "Halo").2.2 (by decide)⟩

/-- C9: the claim says report exceptions are caught and never reach the
caller; in the code neither report call site sits inside a try/except,
so an exception raised while building the issue lists propagates out of
`transform_hltb_data` and the upsert + persist of the enriched table
never runs.  Concretely: with reporting enabled and a failing reporter
the step returns the error, while with reporting disabled the same
inputs produce the persisted table, and these outcomes differ. -/
theorem c9_report_failure_aborts :
    transform_hltb_run true (Except.error "report failure") (some [])
        [procRow "new" 1 2001]
      = Except.error "report failure"
    ∧ transform_hltb_run false (Except.error "report failure") (some [])
        [procRow "new" 1 2001]
      = Except.ok [procRow "new" 1 2001]
    ∧ (Except.error "report failure"
        ≠ (Except.ok [procRow "new" 1 2001] : Except String (List HltbProcRow))) :=
  ⟨rfl, rfl, fun h => Except.noConfusion h⟩

/-- C10: Pokémon query rewriting: a prepared name starting with
"Pokémon" is queried with every occurrence of "Version" removed and the
ends stripped of whitespace; any other name is queried unchanged. -/
theorem c10_pokemon_query_rewrite (s : List Char) :
    ("Pokémon".toList.isPrefixOf s = true →
      hltb_search_name s = strip_chars (replace_all "Version".toList [] s))
    ∧ ("Pokémon".toList.isPrefixOf s = false → hltb_search_name s = s) := by
  constructor
  · intro h
    rw [hltb_search_name, if_pos h]
  · intro h
    have hc : ¬ ("Pokémon".toList.isPrefixOf s = true) := by
      rw [h]; exact Bool.false_ne_true
    rw [hltb_search_name, if_neg hc]

/-- C10 witness: both branches evaluated on concrete names. -/
theorem c10_pokemon_query_rewrite_witness :
    hltb_search_name "Pokémon Blue Version".toList = "Pokémon Blue".toList
    ∧ hltb_search_name "Pokémon Version Red".toList = "Pokémon  Red".toList
    ∧ hltb_search_name "Halo 3".toList = "Halo 3".toList :=
  ⟨((c10_pokemon_query_rewrite _).1 (by decide)).trans (by decide),
   ((c10_pokemon_query_rewrite _).1 (by decide)).trans (by decide),
   (c10_pokemon_query_rewrite _).2 (by decide)⟩

theorem countP_flatMap_sum {α γ : Type} (p : α → Bool) (l : List γ) (f : γ → List α) :
    (l.flatMap f).countP p = (l.map (fun a => (f a).countP p)).sum := by
  induction l with
  | nil => rfl
  | cons a t ih => simp [List.flatMap_cons, List.countP_append, ih]

theorem filter_flatMap_eq {α γ : Type} (p : α → Bool) (l : List γ) (f : γ → List α) :
    (l.flatMap f).filter p = l.flatMap (fun a => (f a).filter p) := by
  induction l with
  | nil => rfl
  | cons a t ih => simp [List.flatMap_cons, List.filter_append, ih]

theorem sum_if_eq_nodup (keys : List Nat) (k : Nat) (h : keys.Nodup) :
    (keys.map (fun x => if x = k then 1 else 0)).sum = if k ∈ keys then 1 else 0 := by
  induction keys with
  | nil => simp
  | cons a t ih =>
    rcases List.nodup_cons.mp h with ⟨ha, ht⟩
    rw [List.map_cons, List.sum_cons, ih ht]
    by_cases hak : a = k
    · subst hak
      simp [ha]
    · have hka : ¬ (k = a) := fun hc => hak hc.symm
      simp [hak, hka, List.mem_cons]

theorem groupApply_countP {α : Type} [DecidableEq α] (l : List α) (key : α → Nat)
    (f : List α → List α)
    (hf : ∀ g : List α, g ≠ [] → ∃ b, b ∈ g ∧ f g = [b]) (k : Nat) :
    (groupApply l key f).countP (fun a => key a == k)
      = if k ∈ l.map key then 1 else 0 := by
  rw [groupApply, countP_flatMap_sum]
  have hpt : ∀ k' ∈ dedupFirst (l.map key),
      (f (l.filter (fun a => key a == k'))).countP (fun a => key a == k)
        = if k' = k then 1 else 0 := by
    intro k' hk'
    rcases List.mem_map.mp (mem_dedupFirst.mp hk') with ⟨a, hal, hak⟩
    have hne : l.filter (fun a => key a == k') ≠ [] :=
      List.ne_nil_of_mem (List.mem_filter.mpr ⟨hal, by simp [hak]⟩)
    rcases hf _ hne with ⟨b, hbg, hfb⟩
    have hbk : key b = k' := by
      have h2 := (List.mem_filter.mp hbg).2
      simpa using h2
    rw [hfb]
    by_cases hkk : k' = k
    · subst hkk
      simp [List.countP_cons, hbk]
    · simp [List.countP_cons, hbk, hkk]
  rw [List.map_congr_left hpt, sum_if_eq_nodup _ _ (nodup_dedupFirst _)]
  by_cases hk : k ∈ l.map key
  · rw [if_pos (mem_dedupFirst.mpr hk), if_pos hk]
  · rw [if_neg (fun hc => hk (mem_dedupFirst.mp hc)), if_neg hk]

theorem mem_groupApply_subset {α : Type} [DecidableEq α] (l : List α) (key : α → Nat)
    (f : List α → List α)
    (hf : ∀ g : List α, g ≠ [] → ∃ b, b ∈ g ∧ f g = [b]) :
    ∀ r ∈ groupApply l key f, r ∈ l := by
  intro r hr
  rw [groupApply] at hr
  rcases List.mem_flatMap.mp hr with ⟨k, hk, hrk⟩
  rcases List.mem_map.mp (mem_dedupFirst.mp hk) with ⟨a, hal, hak⟩
  have hne : l.filter (fun a => key a == k) ≠ [] :=
    List.ne_nil_of_mem (List.mem_filter.mpr ⟨hal, by simp [hak]⟩)
  rcases hf _ hne with ⟨b, hbg, hfb⟩
  rw [hfb] at hrk
  have hrb : r = b := by simpa using hrk
  subst hrb
  exact List.mem_of_mem_filter hbg

theorem nodup_map_eq_of_eq_key {β : Type} (l : List β) (key : β → Nat)
    (h : (l.map key).Nodup) : ∀ a ∈ l, ∀ b ∈ l, key a = key b → a = b := by
  induction l with
  | nil => intro a ha; exact absurd ha (List.not_mem_nil a)
  | cons x t ih =>
    intro a ha b hb hk
    rw [List.map_cons] at h
    rcases List.nodup_cons.mp h with ⟨hx, ht⟩
    rcases List.mem_cons.mp ha with rfl | ha2 <;> rcases List.mem_cons.mp hb with rfl | hb2
    · rfl
    · exact absurd (hk ▸ List.mem_map.mpr ⟨b, hb2, rfl⟩) hx
    · exact absurd (hk ▸ List.mem_map.mpr ⟨a, ha2, rfl⟩) hx
    · exact ih ht a ha2 b hb2 hk

theorem head?_filter_eq_find? {α : Type} (p : α → Bool) (l : List α) :
    (l.filter p).head? = l.find? p := by
  induction l with
  | nil => rfl
  | cons a t ih => by_cases h : p a <;> simp [List.filter_cons, List.find?_cons, h, ih]

theorem igdb_match_one_mono (ratio : String → String → Nat) (names : List String)
    (lid : Nat) (libname : Option String) (t1 t2 : Nat) (h : t1 ≤ t2)
    (hacc : (igdb_match_one ratio t2 names lid libname).1.igdb_name.isSome = true) :
    (igdb_match_one ratio t1 names lid libname).1.igdb_name.isSome = true := by
  cases libname with
  | none => simp [igdb_match_one] at hacc
  | some nm =>
    cases hb : extract_one ratio nm (candidate_filter names nm) with
    | none =>
      simp only [igdb_match_one, hb] at hacc
      simp at hacc
    | some bs =>
      simp only [igdb_match_one, hb] at hacc ⊢
      by_cases h2 : t2 ≤ bs.2
      · rw [if_pos (le_trans h h2)]
        simp
      · rw [if_neg h2] at hacc
        simp at hacc

/-- C8: Threshold monotonicity: for a fixed scorer, library and
candidate pool, raising the acceptance threshold never increases the
number of library records accepted with non-null matched fields. -/
theorem c8_threshold_monotonicity (ratio : String → String → Nat) (library : List LibRowI)
    (igdb : List IgdbRow) (t1 t2 : Nat) (h : t1 ≤ t2) :
    igdb_accepted_count ratio t2 library igdb ≤ igdb_accepted_count ratio t1 library igdb := by
  rw [igdb_accepted_count, igdb_accepted_count, igdb_library_fuzzy_matching,
    igdb_library_fuzzy_matching, ← List.countP_eq_length_filter,
    ← List.countP_eq_length_filter, List.countP_map, List.countP_map]
  apply List.countP_mono_left
  intro L _ hacc
  exact igdb_match_one_mono ratio (igdb_names igdb) L.id L.name t1 t2 h hacc

/-- C8 witness: thresholds 50 ≤ 95 on a concrete one-record library and
one-name pool. -/
theorem c8_threshold_monotonicity_witness :
    igdb_accepted_count (fun a b => if a == b then 100 else 0) 95 [igdbLibHalo] [igdbRowHalo]
      ≤ igdb_accepted_count (fun a b => if a == b then 100 else 0) 50 [igdbLibHalo]
          [igdbRowHalo] :=
  c8_threshold_monotonicity (fun a b => if a == b then 100 else 0) [igdbLibHalo]
    [igdbRowHalo] 50 95 (by decide)

/-- C5: Playtime-pass year reconciliation: `select_best_hltb_match`
refines the spec policy (exact year match wins, first such row on
ties; otherwise the first row with minimal absolute year difference),
and every group with at least two rows collapses to exactly one row.
Determinism is inherent: the function is pure, so equal input groups
give equal winners. -/
theorem c5_playtime_tiebreak (group : List HltbPair) :
    select_best_hltb_match group = hltb_spec_choice group
    ∧ (2 ≤ group.length → (select_best_hltb_match group).length = 1) := by
  have heq : select_best_hltb_match group = hltb_spec_choice group := by
    cases group with
    | nil => rfl
    | cons g0 rest =>
      cases rest with
      | nil =>
        by_cases hb : (g0.1.release_year == g0.2.library_release_year) = true
        · simp [select_best_hltb_match, hltb_spec_choice, List.find?_cons, hb]
        · simp [select_best_hltb_match, hltb_spec_choice, List.find?_cons, hb, first_min_by]
      | cons g1 t =>
        simp only [select_best_hltb_match, hltb_spec_choice]
        have hpt : ∀ p ∈ (g0 :: g1 :: t),
            ((p.1.release_year - g0.2.library_release_year).natAbs == 0)
              = (p.1.release_year == g0.2.library_release_year) := by
          intro p _
          by_cases hp : p.1.release_year = g0.2.library_release_year
          · simp [hp]
          · have hnz : p.1.release_year - g0.2.library_release_year ≠ 0 :=
              sub_ne_zero.mpr hp
            simp [hp, Int.natAbs_eq_zero, hnz]
        rw [List.filter_congr hpt, ← head?_filter_eq_find?]
        cases hf : (g0 :: g1 :: t).filter
            (fun p => p.1.release_year == g0.2.library_release_year) with
        | nil => rfl
        | cons e tl => rfl
  refine ⟨heq, ?_⟩
  intro h2
  rw [heq]
  cases group with
  | nil => simp at h2
  | cons g0 rest =>
    cases hf : (g0 :: rest).find? (fun p => p.1.release_year == g0.2.library_release_year) with
    | some r => simp [hltb_spec_choice, hf]
    | none =>
      rcases first_min_by_of_ne_nil
          (fun p => (p.1.release_year - g0.2.library_release_year).natAbs) (g0 :: rest)
          (by simp) with ⟨b, hb, _⟩
      simp [hltb_spec_choice, hf, hb]

/-- C5 witness: scenario 3, candidate years [2019, 2021] against
library year 2020 — both at distance 1, no exact match, so the first
candidate in iteration order (2019) wins; the group collapses to one
row and the code choice equals the spec choice. -/
theorem c5_playtime_tiebreak_witness :
    (select_best_hltb_match hltbScenarioGroup).length = 1
    ∧ select_best_hltb_match hltbScenarioGroup = hltb_spec_choice hltbScenarioGroup
    ∧ select_best_hltb_match hltbScenarioGroup = [(hltbRawYear 2019, hltbLibRow)] :=
  ⟨(c5_playtime_tiebreak hltbScenarioGroup).2 (by decide),
   (c5_playtime_tiebreak hltbScenarioGroup).1,
   by decide⟩

theorem igdb_year_step_sub (group : List IgdbResultRow) :
    ∀ r ∈ igdb_year_step group, r ∈ group := by
  intro r hr
  cases group with
  | nil => simp [igdb_year_step] at hr
  | cons g0 rest =>
    cases hy : g0.release_year with
    | none =>
      simp only [igdb_year_step, hy] at hr
      exact hr
    | some ly =>
      simp only [igdb_year_step, hy] at hr
      split at hr
      · exact hr
      · exact List.mem_of_mem_filter hr

theorem igdb_year_step_ne_nil (group : List IgdbResultRow) (h : group ≠ []) :
    igdb_year_step group ≠ [] := by
  cases group with
  | nil => exact absurd rfl h
  | cons g0 rest =>
    cases hy : g0.release_year with
    | none =>
      simp only [igdb_year_step, hy]
      exact h
    | some ly =>
      simp only [igdb_year_step, hy]
      split
      · exact h
      · rename_i hne
        intro hc
        exact hne (by rw [hc]; rfl)

theorem igdb_category_step_sub (group : List IgdbResultRow) :
    ∀ r ∈ igdb_category_step group, r ∈ group := by
  intro r hr
  simp only [igdb_category_step] at hr
  split at hr
  · exact hr
  · exact List.mem_of_mem_filter hr

theorem igdb_category_step_ne_nil (group : List IgdbResultRow) (h : group ≠ []) :
    igdb_category_step group ≠ [] := by
  simp only [igdb_category_step]
  split
  · exact h
  · rename_i hne
    intro hc
    exact hne (by rw [hc]; rfl)

theorem igdb_category_step_single (c : IgdbResultRow) : igdb_category_step [c] = [c] := by
  simp only [igdb_category_step]
  by_cases hc : (c.category == some 0) = true
  · simp [List.filter_cons, hc]
  · simp [List.filter_cons, hc]

/-- C4: the claim's year-narrowing step (1) is never performed by the
code: `select_best_igdb_match` reads `group.iloc[0].get('release_year',
None)`, but the merged frame has no `release_year` column — the library
year lives in `library_release_year` — so the lookup always yields None
and the year step is dead code, even when the library year is known and
parseable.  Concretely: a library record with known year 1995 fans out
to two same-named catalog candidates, one from 1995 (category 9) and
one from 2008 (category 0); the reconciler skips the year narrowing and
the category step picks the 2008 entry, while the claimed policy
(`igdb_spec_choice`, keyed on the library year the frame actually
carries) narrows to the 1995 entry.  The final conjuncts record that
the library year is present on the rows while the `release_year` value
the code consults is null, and that the two outcomes differ. -/
theorem c4_catalog_year_step_dead_code :
    filter_and_match_igdb_data [igdbLibChronoRow] [igdbRowChrono1995, igdbRowChrono2008]
        [igdbMatchChrono]
      = [igdb_mk_row igdbMatchChrono (some igdbLibChronoRow) (some igdbRowChrono2008)]
    ∧ igdb_spec_choice
        (igdb_rows_for [igdbLibChronoRow] [igdbRowChrono1995, igdbRowChrono2008]
          igdbMatchChrono)
      = some (igdb_mk_row igdbMatchChrono (some igdbLibChronoRow) (some igdbRowChrono1995))
    ∧ (igdb_mk_row igdbMatchChrono (some igdbLibChronoRow)
        (some igdbRowChrono2008)).library_release_year = some 1995
    ∧ (igdb_mk_row igdbMatchChrono (some igdbLibChronoRow)
        (some igdbRowChrono2008)).release_year = none
    ∧ igdb_mk_row igdbMatchChrono (some igdbLibChronoRow) (some igdbRowChrono2008)
      ≠ igdb_mk_row igdbMatchChrono (some igdbLibChronoRow) (some igdbRowChrono1995) :=
  ⟨by decide, by decide, rfl, rfl, by decide⟩

theorem select_igdb_shape : ∀ g : List IgdbResultRow, g ≠ [] →
    ∃ b, b ∈ g ∧ (select_best_igdb_match g).toList = [b] := by
  intro g hg
  cases g with
  | nil => exact absurd rfl hg
  | cons c rest =>
    cases rest with
    | nil => exact ⟨c, List.mem_cons_self _ _, rfl⟩
    | cons d t =>
      simp only [select_best_igdb_match]
      by_cases h1 : 1 < (igdb_year_step (c :: d :: t)).length
      · rw [if_pos h1]
        by_cases h2 : 1 < (igdb_category_step (igdb_year_step (c :: d :: t))).length
        · rw [if_pos h2]
          have hne : igdb_category_step (igdb_year_step (c :: d :: t)) ≠ [] :=
            igdb_category_step_ne_nil _ (igdb_year_step_ne_nil _ (by simp))
          rcases first_min_by_of_ne_nil igdb_nan_count _ hne with ⟨b, hb, hbm⟩
          refine ⟨b, ?_, by rw [hb]; rfl⟩
          exact igdb_year_step_sub _ _ (igdb_category_step_sub _ _ hbm)
        · rw [if_neg h2]
          have hne : igdb_category_step (igdb_year_step (c :: d :: t)) ≠ [] :=
            igdb_category_step_ne_nil _ (igdb_year_step_ne_nil _ (by simp))
          cases hcg : igdb_category_step (igdb_year_step (c :: d :: t)) with
          | nil => exact absurd hcg hne
          | cons x xs =>
            refine ⟨x, ?_, rfl⟩
            apply igdb_year_step_sub
            apply igdb_category_step_sub
            rw [hcg]
            exact List.mem_cons_self _ _
      · rw [if_neg h1, if_neg h1]
        have hne : igdb_year_step (c :: d :: t) ≠ [] :=
          igdb_year_step_ne_nil _ (by simp)
        cases hg1 : igdb_year_step (c :: d :: t) with
        | nil => exact absurd hg1 hne
        | cons x xs =>
          refine ⟨x, ?_, rfl⟩
          apply igdb_year_step_sub
          rw [hg1]
          exact List.mem_cons_self _ _

theorem select_best_hltb_shape : ∀ g : List HltbPair, g ≠ [] →
    ∃ b, b ∈ g ∧ select_best_hltb_match g = [b] := by
  intro g hg
  cases g with
  | nil => exact absurd rfl hg
  | cons g0 rest =>
    cases rest with
    | nil => exact ⟨g0, List.mem_cons_self _ _, rfl⟩
    | cons g1 t =>
      cases hf : (g0 :: g1 :: t).filter
          (fun p => (p.1.release_year - g0.2.library_release_year).natAbs == 0) with
      | cons e tl =>
        refine ⟨e, List.mem_of_mem_filter (by rw [hf]; exact List.mem_cons_self _ _), ?_⟩
        simp [select_best_hltb_match, hf]
      | nil =>
        rcases first_min_by_of_ne_nil
            (fun p => (p.1.release_year - g0.2.library_release_year).natAbs)
            (g0 :: g1 :: t) (by simp) with ⟨b, hb, hbm⟩
        refine ⟨b, hbm, ?_⟩
        simp [select_best_hltb_match, hf, hb]

theorem mem_hltb_matched_pairs (raw : List HltbRawRow) (library : List LibRow)
    (m : HltbRawRow) (L : LibRow) :
    (m, L) ∈ hltb_matched_pairs raw library
      ↔ L ∈ library ∧ m ∈ hltb_dedup raw ∧ m.library_id = L.id := by
  rw [hltb_matched_pairs, List.mem_filterMap]
  constructor
  · rintro ⟨⟨o, L2⟩, hmem, hsome⟩
    cases o with
    | none => simp at hsome
    | some m2 =>
      simp at hsome
      obtain ⟨hm2, hL2⟩ := hsome
      subst hm2
      subst hL2
      simp only [hltb_right_merge] at hmem
      rcases List.mem_flatMap.mp hmem with ⟨L0, hL0, hin⟩
      by_cases he : ((hltb_dedup raw).filter (fun r => r.library_id == L0.id)).isEmpty = true
      · rw [if_pos he] at hin
        simp at hin
      · rw [if_neg he] at hin
        rcases List.mem_map.mp hin with ⟨m0, hm0, heq⟩
        simp at heq
        obtain ⟨hm0eq, hL0eq⟩ := heq
        subst hm0eq
        subst hL0eq
        rcases List.mem_filter.mp hm0 with ⟨hmm, hbeq⟩
        exact ⟨hL0, hmm, by simpa using hbeq⟩
  · rintro ⟨hL, hm, hid⟩
    refine ⟨(some m, L), ?_, rfl⟩
    simp only [hltb_right_merge]
    apply List.mem_flatMap.mpr
    refine ⟨L, hL, ?_⟩
    have hms : m ∈ (hltb_dedup raw).filter (fun r => r.library_id == L.id) :=
      List.mem_filter.mpr ⟨hm, by simp [hid]⟩
    have hne : ¬ ((((hltb_dedup raw).filter (fun r => r.library_id == L.id))).isEmpty = true) := by
      intro hc
      rw [List.isEmpty_iff.mp hc] at hms
      exact List.not_mem_nil m hms
    rw [if_neg hne]
    exact List.mem_map.mpr ⟨m, hms, rfl⟩

theorem mem_map_key_hltb (raw : List HltbRawRow) (library : List LibRow) (k : Nat) :
    k ∈ (hltb_matched_pairs raw library).map (fun p => p.1.library_id)
      ↔ hltb_has_match raw library k = true := by
  rw [hltb_has_match, Bool.and_eq_true, List.any_eq_true, List.any_eq_true]
  constructor
  · intro hmem
    rcases List.mem_map.mp hmem with ⟨⟨m, L⟩, hp, hk⟩
    rcases (mem_hltb_matched_pairs raw library m L).mp hp with ⟨hL, hm, hid⟩
    have hk2 : m.library_id = k := hk
    refine ⟨⟨L, hL, ?_⟩, ⟨m, hm, ?_⟩⟩
    · simp [← hid, hk2]
    · simp [hk2]
  · rintro ⟨⟨L, hL, hLk⟩, ⟨m, hm, hmk⟩⟩
    have hLk2 : L.id = k := by simpa using hLk
    have hmk2 : m.library_id = k := by simpa using hmk
    apply List.mem_map.mpr
    exact ⟨(m, L), (mem_hltb_matched_pairs raw library m L).mpr
      ⟨hL, hm, by rw [hmk2, hLk2]⟩, hmk2⟩

theorem hltb_count (raw : List HltbRawRow) (library : List LibRow) (k : Nat) :
    (filter_and_match_hltb_data raw library).countP (fun p => p.1.library_id == k)
      = if hltb_has_match raw library k = true then 1 else 0 := by
  rw [filter_and_match_hltb_data, groupApply_countP _ _ _ select_best_hltb_shape k]
  by_cases hm : hltb_has_match raw library k = true
  · rw [if_pos ((mem_map_key_hltb raw library k).mpr hm), if_pos hm]
  · rw [if_neg (fun hc => hm ((mem_map_key_hltb raw library k).mp hc)), if_neg hm]

theorem igdb_rows_key (library : List LibRowI) (igdb : List IgdbRow) (M : MatchRow) :
    ∀ r ∈ igdb_rows_for library igdb M,
      r.library_id = M.library_id ∧ r.igdb_name = M.igdb_name := by
  intro r hr
  rw [igdb_rows_for] at hr
  rcases List.mem_flatMap.mp hr with ⟨ls, _, hr2⟩
  rcases List.mem_map.mp hr2 with ⟨gs, _, hmk⟩
  subst hmk
  exact ⟨rfl, rfl⟩

theorem igdb_lib_side_ne_nil (library : List LibRowI) (M : MatchRow) :
    igdb_lib_side library M ≠ [] := by
  simp only [igdb_lib_side]
  split
  · simp
  · rename_i hne
    cases hc : library.filter (fun L => L.id == M.library_id) with
    | nil => exact absurd (by rw [hc]; rfl) hne
    | cons a t => simp

theorem igdb_game_side_ne_nil (igdb : List IgdbRow) (M : MatchRow) :
    igdb_game_side igdb M ≠ [] := by
  cases hn : M.igdb_name with
  | none => simp [igdb_game_side, hn]
  | some nm =>
    simp only [igdb_game_side, hn]
    split
    · simp
    · rename_i hne
      cases hc : igdb.filter (fun g => g.name == some nm) with
      | nil => exact absurd (by rw [hc]; rfl) hne
      | cons a t => simp

theorem igdb_rows_for_ne_nil (library : List LibRowI) (igdb : List IgdbRow) (M : MatchRow) :
    igdb_rows_for library igdb M ≠ [] := by
  rw [igdb_rows_for]
  cases hl : igdb_lib_side library M with
  | nil => exact absurd hl (igdb_lib_side_ne_nil library M)
  | cons ls lt =>
    cases hgs : igdb_game_side igdb M with
    | nil => exact absurd hgs (igdb_game_side_ne_nil igdb M)
    | cons gs gt =>
      exact List.ne_nil_of_mem (a := igdb_mk_row M ls gs)
        (List.mem_flatMap.mpr ⟨ls, List.mem_cons_self _ _,
          List.mem_map.mpr ⟨gs, List.mem_cons_self _ _, rfl⟩⟩)

theorem igdb_lib_side_len_one (library : List LibRowI) (M : MatchRow)
    (h : (library.map (fun L => L.id)).Nodup) : (igdb_lib_side library M).length = 1 := by
  simp only [igdb_lib_side]
  split
  · rfl
  · rename_i hne
    rw [List.length_map]
    have hle : (library.filter (fun L => L.id == M.library_id)).length ≤ 1 := by
      have h1 : (library.filter (fun L => L.id == M.library_id)).length
          = library.countP (fun L => L.id == M.library_id) :=
        (List.countP_eq_length_filter _ _).symm
      have h2 : library.countP (fun L => L.id == M.library_id)
          = (library.map (fun L => L.id)).count M.library_id := by
        rw [List.count_eq_countP, List.countP_map]
        rfl
      rw [h1, h2]
      exact List.nodup_iff_count_le_one.mp h M.library_id
    have hne2 : (library.filter (fun L => L.id == M.library_id)).length ≠ 0 := by
      intro hc
      rw [List.length_eq_zero] at hc
      exact hne (by rw [hc]; rfl)
    omega

theorem igdb_rows_for_len_none (library : List LibRowI) (igdb : List IgdbRow) (M : MatchRow)
    (hname : M.igdb_name = none) (h : (library.map (fun L => L.id)).Nodup) :
    (igdb_rows_for library igdb M).length = 1 := by
  rw [igdb_rows_for]
  have hg : igdb_game_side igdb M = [none] := by simp only [igdb_game_side, hname]
  rcases List.length_eq_one.mp (igdb_lib_side_len_one library M h) with ⟨ls, hls⟩
  rw [hls, hg]
  rfl

theorem igdb_null_fields (library : List LibRowI) (igdb : List IgdbRow) (M : MatchRow)
    (r : IgdbResultRow) (hr : r ∈ igdb_rows_for library igdb M)
    (hname : M.igdb_name = none) :
    r.first_release_date = none ∧ r.category = none ∧ r.igdb_id = none := by
  rw [igdb_rows_for] at hr
  rcases List.mem_flatMap.mp hr with ⟨ls, _, hr2⟩
  rcases List.mem_map.mp hr2 with ⟨gs, hgs, hmk⟩
  subst hmk
  have hg : igdb_game_side igdb M = [none] := by simp only [igdb_game_side, hname]
  rw [hg] at hgs
  have hgn : gs = none := by simpa using hgs
  subst hgn
  exact ⟨rfl, rfl, rfl⟩

theorem countP_key_flatMap (match_df : List MatchRow) (g : MatchRow → List IgdbResultRow)
    (k : Nat) (hkey : ∀ M, ∀ r ∈ g M, r.library_id = M.library_id)
    (hnd : (match_df.map (fun M => M.library_id)).Nodup) :
    (match_df.flatMap g).countP (fun r => r.library_id == k)
      = (match match_df.find? (fun M => M.library_id == k) with
         | some M => (g M).length
         | none => 0) := by
  induction match_df with
  | nil => rfl
  | cons M rest ih =>
    rw [List.map_cons] at hnd
    rcases List.nodup_cons.mp hnd with ⟨hMnot, hndr⟩
    rw [List.flatMap_cons, List.countP_append]
    by_cases hMk : (M.library_id == k) = true
    · have hMk2 : M.library_id = k := by simpa using hMk
      have hrest0 : (rest.flatMap g).countP (fun r => r.library_id == k) = 0 := by
        rw [List.countP_eq_zero]
        intro r hr hc
        rcases List.mem_flatMap.mp hr with ⟨M2, hM2, hrM⟩
        rw [hkey M2 r hrM] at hc
        have hM2k : M2.library_id = k := by simpa using hc
        exact hMnot (List.mem_map.mpr ⟨M2, hM2, by rw [hM2k, hMk2]⟩)
      have hgM : (g M).countP (fun r => r.library_id == k) = (g M).length := by
        rw [List.countP_eq_length]
        intro r hr
        simp [hkey M r hr, hMk2]
      simp [hgM, hrest0, List.find?_cons, hMk]
    · have hMk0 : (M.library_id == k) = false := by
        cases hc : (M.library_id == k)
        · rfl
        · exact absurd hc hMk
      have hgM0 : (g M).countP (fun r => r.library_id == k) = 0 := by
        rw [List.countP_eq_zero]
        intro r hr hc
        rw [hkey M r hr, hMk0] at hc
        exact Bool.noConfusion hc
      rw [hgM0, Nat.zero_add, ih hndr]
      simp [List.find?_cons, hMk0]

theorem mem_key_flatMap (match_df : List MatchRow) (g : MatchRow → List IgdbResultRow)
    (k : Nat) (hkey : ∀ M, ∀ r ∈ g M, r.library_id = M.library_id) :
    k ∈ (match_df.flatMap g).map (fun r => r.library_id)
      ↔ ∃ M ∈ match_df, M.library_id = k ∧ g M ≠ [] := by
  rw [List.mem_map]
  constructor
  · rintro ⟨r, hr, hrk⟩
    rcases List.mem_flatMap.mp hr with ⟨M, hM, hrM⟩
    exact ⟨M, hM, by rw [← hkey M r hrM]; exact hrk, List.ne_nil_of_mem hrM⟩
  · rintro ⟨M, hM, hMk, hne⟩
    cases hg : g M with
    | nil => exact absurd hg hne
    | cons r rt =>
      refine ⟨r, List.mem_flatMap.mpr ⟨M, hM, ?_⟩, ?_⟩
      · rw [hg]
        exact List.mem_cons_self _ _
      · rw [hkey M r (by rw [hg]; exact List.mem_cons_self _ _), hMk]

theorem igdb_matched_decomp (library : List LibRowI) (igdb : List IgdbRow)
    (match_df : List MatchRow) :
    (igdb_result_rows library igdb match_df).filter (fun r => r.igdb_name.isSome)
      = match_df.flatMap
          (fun M => if M.igdb_name.isSome then igdb_rows_for library igdb M else []) := by
  rw [igdb_result_rows, filter_flatMap_eq]
  apply List.flatMap_congr
  intro M _
  by_cases hname : M.igdb_name.isSome = true
  · rw [if_pos hname]
    apply List.filter_eq_self.mpr
    intro r hr
    rw [(igdb_rows_key library igdb M r hr).2]
    exact hname
  · rw [if_neg hname, List.filter_eq_nil_iff]
    intro r hr hc
    rw [(igdb_rows_key library igdb M r hr).2] at hc
    exact hname hc

theorem igdb_unmatched_decomp (library : List LibRowI) (igdb : List IgdbRow)
    (match_df : List MatchRow) :
    (igdb_result_rows library igdb match_df).filter (fun r => r.igdb_name.isNone)
      = match_df.flatMap
          (fun M => if M.igdb_name.isNone then igdb_rows_for library igdb M else []) := by
  rw [igdb_result_rows, filter_flatMap_eq]
  apply List.flatMap_congr
  intro M _
  by_cases hname : M.igdb_name.isNone = true
  · rw [if_pos hname]
    apply List.filter_eq_self.mpr
    intro r hr
    rw [(igdb_rows_key library igdb M r hr).2]
    exact hname
  · rw [if_neg hname, List.filter_eq_nil_iff]
    intro r hr hc
    rw [(igdb_rows_key library igdb M r hr).2] at hc
    exact hname hc

theorem igdb_count (library : List LibRowI) (igdb : List IgdbRow)
    (match_df : List MatchRow) (k : Nat)
    (hm : (match_df.map (fun M => M.library_id)).Nodup)
    (hl : (library.map (fun L => L.id)).Nodup) :
    (filter_and_match_igdb_data library igdb match_df).countP (fun r => r.library_id == k)
      = if k ∈ match_df.map (fun M => M.library_id) then 1 else 0 := by
  have hkeyAll : ∀ M, ∀ r ∈ igdb_rows_for library igdb M, r.library_id = M.library_id :=
    fun M r hr => (igdb_rows_key library igdb M r hr).1
  have hkeyU : ∀ M, ∀ r ∈ (if M.igdb_name.isNone then igdb_rows_for library igdb M else []),
      r.library_id = M.library_id := by
    intro M r hr
    by_cases hn : M.igdb_name.isNone = true
    · rw [if_pos hn] at hr
      exact hkeyAll M r hr
    · rw [if_neg hn] at hr
      exact absurd hr (List.not_mem_nil r)
  have hkeyM : ∀ M, ∀ r ∈ (if M.igdb_name.isSome then igdb_rows_for library igdb M else []),
      r.library_id = M.library_id := by
    intro M r hr
    by_cases hn : M.igdb_name.isSome = true
    · rw [if_pos hn] at hr
      exact hkeyAll M r hr
    · rw [if_neg hn] at hr
      exact absurd hr (List.not_mem_nil r)
  simp only [filter_and_match_igdb_data]
  by_cases hemp : ((igdb_result_rows library igdb match_df).filter
      (fun r => r.igdb_name.isSome)).isEmpty = true
  · rw [if_pos hemp]
    rw [igdb_result_rows, countP_key_flatMap match_df _ k hkeyAll hm]
    cases hf : match_df.find? (fun M => M.library_id == k) with
    | none =>
      have hnotin : k ∉ match_df.map (fun M => M.library_id) := by
        intro hc
        rcases List.mem_map.mp hc with ⟨M, hM, hMk⟩
        exact (List.find?_eq_none.mp hf M hM) (by simp [hMk])
      rw [if_neg hnotin]
    | some M0 =>
      have hM0mem : M0 ∈ match_df := List.mem_of_find?_eq_some hf
      have hM0k : M0.library_id = k := by
        have hb := List.find?_some hf
        simpa using hb
      rw [if_pos (List.mem_map.mpr ⟨M0, hM0mem, hM0k⟩)]
      have hname : M0.igdb_name = none := by
        by_contra hc
        have hsome : M0.igdb_name.isSome = true := Option.ne_none_iff_isSome.mp hc
        rcases List.exists_mem_of_ne_nil _ (igdb_rows_for_ne_nil library igdb M0)
          with ⟨r, hr⟩
        have hmem : r ∈ (igdb_result_rows library igdb match_df).filter
            (fun r => r.igdb_name.isSome) := by
          refine List.mem_filter.mpr ⟨?_, ?_⟩
          · rw [igdb_result_rows]
            exact List.mem_flatMap.mpr ⟨M0, hM0mem, hr⟩
          · rw [(igdb_rows_key library igdb M0 r hr).2]
            exact hsome
        rw [List.isEmpty_iff.mp hemp] at hmem
        exact List.not_mem_nil r hmem
      exact igdb_rows_for_len_none library igdb M0 hname hl
  · rw [if_neg hemp, List.countP_append,
      groupApply_countP _ _ _ select_igdb_shape k,
      igdb_unmatched_decomp, countP_key_flatMap match_df _ k hkeyU hm]
    cases hf : match_df.find? (fun M => M.library_id == k) with
    | none =>
      have hnotin : k ∉ match_df.map (fun M => M.library_id) := by
        intro hc
        rcases List.mem_map.mp hc with ⟨M, hM, hMk⟩
        exact (List.find?_eq_none.mp hf M hM) (by simp [hMk])
      have hnotin2 : k ∉ ((igdb_result_rows library igdb match_df).filter
          (fun r => r.igdb_name.isSome)).map (fun r => r.library_id) := by
        intro hc
        rw [igdb_matched_decomp] at hc
        rcases (mem_key_flatMap match_df _ k hkeyM).mp hc with ⟨M, hM, hMk, _⟩
        exact hnotin (List.mem_map.mpr ⟨M, hM, hMk⟩)
      rw [if_neg hnotin2, if_neg hnotin]
      rfl
    | some M0 =>
      have hM0mem : M0 ∈ match_df := List.mem_of_find?_eq_some hf
      have hM0k : M0.library_id = k := by
        have hb := List.find?_some hf
        simpa using hb
      rw [if_pos (List.mem_map.mpr ⟨M0, hM0mem, hM0k⟩)]
      cases hname : M0.igdb_name with
      | none =>
        have hnm : k ∉ ((igdb_result_rows library igdb match_df).filter
            (fun r => r.igdb_name.isSome)).map (fun r => r.library_id) := by
          intro hc
          rw [igdb_matched_decomp] at hc
          rcases (mem_key_flatMap match_df _ k hkeyM).mp hc with ⟨M, hM, hMk, hne⟩
          have hMM0 : M = M0 :=
            nodup_map_eq_of_eq_key match_df (fun M => M.library_id) hm M hM M0 hM0mem
              (show M.library_id = M0.library_id by rw [hMk, hM0k])
          rw [hMM0] at hne
          apply hne
          simp [hname]
        rw [if_neg hnm, Nat.zero_add]
        simp only [hname, Option.isNone_none, if_true]
        exact igdb_rows_for_len_none library igdb M0 hname hl
      | some nm =>
        have hsome : M0.igdb_name.isSome = true := by rw [hname]; rfl
        have hin : k ∈ ((igdb_result_rows library igdb match_df).filter
            (fun r => r.igdb_name.isSome)).map (fun r => r.library_id) := by
          rw [igdb_matched_decomp]
          apply (mem_key_flatMap match_df _ k hkeyM).mpr
          refine ⟨M0, hM0mem, hM0k, ?_⟩
          simp [hsome, igdb_rows_for_ne_nil library igdb M0]
        rw [if_pos hin]
        simp [hname]

theorem igdb_out_null_fields (library : List LibRowI) (igdb : List IgdbRow)
    (match_df : List MatchRow) (r : IgdbResultRow)
    (hr : r ∈ filter_and_match_igdb_data library igdb match_df)
    (hnull : r.igdb_name = none) :
    r.first_release_date = none ∧ r.category = none ∧ r.igdb_id = none := by
  have hres : r ∈ igdb_result_rows library igdb match_df := by
    simp only [filter_and_match_igdb_data] at hr
    by_cases hemp : ((igdb_result_rows library igdb match_df).filter
        (fun r => r.igdb_name.isSome)).isEmpty = true
    · rw [if_pos hemp] at hr
      exact hr
    · rw [if_neg hemp] at hr
      rcases List.mem_append.mp hr with hr1 | hr2
      · have hmm := mem_groupApply_subset _ _ _ select_igdb_shape r hr1
        have h2 := (List.mem_filter.mp hmm).2
        rw [hnull] at h2
        exact absurd h2 (by simp)
      · exact (List.mem_filter.mp hr2).1
  rw [igdb_result_rows] at hres
  rcases List.mem_flatMap.mp hres with ⟨M, _, hrM⟩
  have hname : M.igdb_name = none := by
    rw [← (igdb_rows_key library igdb M r hrM).2]
    exact hnull
  exact igdb_null_fields library igdb M r hrM hname

/-- C3 counterexample: the claim requires exactly one output row per
library record, including an all-null row for records matching nothing;
but in the HLTB pass the unmatched merged row carries a NaN
`library_id` group key, pandas `groupby` drops it, and the record
vanishes: with an empty raw extract the library record with id 1
produces zero output rows. -/
theorem c3_reconciliation_counterexample :
    filter_and_match_hltb_data [] [hltbLibChrono] = []
    ∧ (filter_and_match_hltb_data [] [hltbLibChrono]).countP
        (fun p => p.1.library_id == 1) = 0 :=
  ⟨rfl, rfl⟩

/-- C3 amended: (HLTB pass) the reconciled output has exactly one row
per library id that owns at least one surviving raw match, and zero
rows — not an all-null row — for library records matching nothing;
(IGDB pass) with distinct match-row keys and distinct library ids the
output has exactly one row per library id in the match set, and rows of
unmatched records survive with all matched IGDB fields null. -/
theorem c3_reconciliation_amended :
    (∀ (raw : List HltbRawRow) (library : List LibRow) (k : Nat),
      (filter_and_match_hltb_data raw library).countP (fun p => p.1.library_id == k)
        = if hltb_has_match raw library k = true then 1 else 0)
    ∧ (∀ (library : List LibRowI) (igdb : List IgdbRow) (match_df : List MatchRow) (k : Nat),
      (match_df.map (fun M => M.library_id)).Nodup →
      (library.map (fun L => L.id)).Nodup →
      (filter_and_match_igdb_data library igdb match_df).countP (fun r => r.library_id == k)
        = if k ∈ match_df.map (fun M => M.library_id) then 1 else 0)
    ∧ (∀ (library : List LibRowI) (igdb : List IgdbRow) (match_df : List MatchRow)
        (r : IgdbResultRow), r ∈ filter_and_match_igdb_data library igdb match_df →
      r.igdb_name = none →
      r.first_release_date = none ∧ r.category = none ∧ r.igdb_id = none) :=
  ⟨hltb_count, igdb_count, igdb_out_null_fields⟩

/-- C3 amended witness: concrete evaluations — HLTB: one raw row for
library id 1 gives exactly one output row for id 1 and none for id 2;
IGDB: a single matched match-row gives one output row for id 5 and none
for id 6. -/
theorem c3_reconciliation_amended_witness :
    (filter_and_match_hltb_data [hltbRawChrono] [hltbLibChrono, hltbLibObscure]).countP
        (fun p => p.1.library_id == 1) = 1
    ∧ (filter_and_match_hltb_data [hltbRawChrono] [hltbLibChrono, hltbLibObscure]).countP
        (fun p => p.1.library_id == 2) = 0
    ∧ (filter_and_match_igdb_data [igdbLibHalo] [igdbRowHalo] [igdbMatchHalo]).countP
        (fun r => r.library_id == 5) = 1
    ∧ (filter_and_match_igdb_data [igdbLibHalo] [igdbRowHalo] [igdbMatchHalo]).countP
        (fun r => r.library_id == 6) = 0 :=
  ⟨(c3_reconciliation_amended.1 [hltbRawChrono] [hltbLibChrono, hltbLibObscure] 1).trans
      (by decide),
   (c3_reconciliation_amended.1 [hltbRawChrono] [hltbLibChrono, hltbLibObscure] 2).trans
      (by decide),
   (c3_reconciliation_amended.2.1 [igdbLibHalo] [igdbRowHalo] [igdbMatchHalo] 5
      (by decide) (by decide)).trans (by decide),
   (c3_reconciliation_amended.2.1 [igdbLibHalo] [igdbRowHalo] [igdbMatchHalo] 6
      (by decide) (by decide)).trans (by decide)⟩
